import Mathlib

/-!
Shallow embedding of `gsk/gskresourcecache.c`: a generational resource
cache mapping opaque keys to entries holding a value, a monotonic
last-access timestamp and a liveness counter ("age").

Modelling conventions:
* `gpointer` values are modelled by `Option Nat` (`none` is `NULL`); a
  non-null pointer is identified with the payload it points to, so
  `g_boxed_copy` (which returns a fresh pointer to equal data) and
  `g_object_ref` (which returns its argument) are both the identity on
  payloads.
* keys are `Nat`; the `GHashTable` is an association list in insertion
  order, with the C's in-place item mutation modelled by replacing the
  first entry with a matching key.
* `g_get_monotonic_time` is an explicit `now` argument to `get`.
* `g_critical` diagnostics are counted in the ghost field `criticals`
  (the logging performed internally by a failed `g_return_if_fail`
  guard is not counted; those guards are modelled as silent no-ops).
* the `GSK_IS_RESOURCE_CACHE` instance checks always pass: the model
  only considers valid cache instances.
-/

namespace GskCache

/-- Fundamental GLib type tags as far as the cache distinguishes them:
`G_TYPE_FUNDAMENTAL` of a value type is compared against
`G_TYPE_POINTER`, `G_TYPE_BOXED` and `G_TYPE_OBJECT`; `invalid` stands
for `G_TYPE_INVALID` and `other` for every remaining fundamental. -/
inductive Fundamental where
  | invalid
  | pointer
  | boxed
  | object
  | other
deriving DecidableEq

/-- A `GType` as the cache sees it: `G_TYPE_INVALID`, `G_TYPE_POINTER`,
a (possibly derived) boxed type, a (possibly derived) object type, or
some other type; the `Nat` index distinguishes concrete types with the
same fundamental. -/
inductive GType where
  | invalid
  | pointer
  | boxed (id : Nat)
  | object (id : Nat)
  | other (id : Nat)
deriving DecidableEq

/-- `G_TYPE_FUNDAMENTAL` of a type. -/
def gTypeFundamental : GType → Fundamental
  | .invalid => .invalid
  | .pointer => .pointer
  | .boxed _ => .boxed
  | .object _ => .object
  | .other _ => .other

/-- A `gpointer`: `none` is `NULL`, `some v` a pointer to payload `v`. -/
abbrev Gpointer : Type := Option Nat

/-- `g_boxed_copy` on payloads: a fresh copy holds the same payload. -/
def g_boxed_copy (v : Nat) : Nat := v

/-- `g_object_ref` returns its argument after bumping the refcount. -/
def g_object_ref (v : Nat) : Nat := v

/-- The per-entry record `ResourceCacheItem`. -/
structure ResourceCacheItem where
  value_type : GType
  value : Gpointer
  last_access_time : Int
  age : Int
deriving DecidableEq

/-- Keys are opaque `gpointer`s; modelled as `Nat`. -/
abbrev Key : Type := Nat

/-- The `GHashTable` mapping keys to items, in insertion order. -/
abbrev Table : Type := List (Key × ResourceCacheItem)

/-- `g_hash_table_lookup`: first entry whose key matches. -/
def tableLookup : Table → Key → Option ResourceCacheItem
  | [], _ => none
  | e :: rest, k => if e.1 = k then some e.2 else tableLookup rest k

/-- In-place mutation of the looked-up item: replace the first entry
whose key matches. -/
def tableUpdate : Table → Key → ResourceCacheItem → Table
  | [], _, _ => []
  | e :: rest, k, item =>
      if e.1 = k then (e.1, item) :: rest else e :: tableUpdate rest k item

/-- `g_hash_table_insert` of a key known to be absent: append. -/
def tableInsert (t : Table) (k : Key) (item : ResourceCacheItem) : Table :=
  t ++ [(k, item)]

/-- The `GskResourceCachePrivate` instance struct, plus the ghost
`criticals` counter of emitted `g_critical` diagnostics.  The
caller-supplied `key_hash`, `key_equal` and `key_notify` function
pointers are opaque handles (`0` is `NULL`). -/
structure GskResourceCachePrivate where
  resources : Option Table
  key_hash : Nat
  key_equal : Nat
  key_notify : Nat
  value_type : GType
  name : Option String
  criticals : Nat
deriving DecidableEq

/-- A freshly constructed cache: zero-filled private struct, with the
construct-only "name" property interned when non-`NULL`. -/
def gsk_resource_cache_new (name : Option String) : GskResourceCachePrivate :=
  { resources := none
    key_hash := 0
    key_equal := 0
    key_notify := 0
    value_type := GType.invalid
    name := name
    criticals := 0 }

/-- `gsk_resource_cache_set_hash_func`: guarded by
`g_return_if_fail (priv->resources == NULL)`. -/
def gsk_resource_cache_set_hash_func (p : GskResourceCachePrivate)
    (key_hash : Nat) : GskResourceCachePrivate :=
  if p.resources.isSome then p else { p with key_hash := key_hash }

/-- `gsk_resource_cache_set_equal_func`: guarded by
`g_return_if_fail (priv->resources == NULL)`. -/
def gsk_resource_cache_set_equal_func (p : GskResourceCachePrivate)
    (key_equal : Nat) : GskResourceCachePrivate :=
  if p.resources.isSome then p else { p with key_equal := key_equal }

/-- `gsk_resource_cache_set_free_func`: guarded by
`g_return_if_fail (priv->resources == NULL)`. -/
def gsk_resource_cache_set_free_func (p : GskResourceCachePrivate)
    (key_notify : Nat) : GskResourceCachePrivate :=
  if p.resources.isSome then p else { p with key_notify := key_notify }

/-- `gsk_resource_cache_set_value_type`, including the source's
condition `G_TYPE_FUNDAMENTAL (value_type) != G_TYPE_POINTER ||
G_TYPE_FUNDAMENTAL (value_type) != G_TYPE_BOXED ||
G_TYPE_FUNDAMENTAL (value_type) != G_TYPE_OBJECT` verbatim. -/
def gsk_resource_cache_set_value_type (p : GskResourceCachePrivate)
    (value_type : GType) : GskResourceCachePrivate :=
  if p.resources.isSome then p
  else if value_type = GType.invalid then p
  else if gTypeFundamental value_type ≠ Fundamental.pointer ∨
          gTypeFundamental value_type ≠ Fundamental.boxed ∨
          gTypeFundamental value_type ≠ Fundamental.object then
    { p with criticals := p.criticals + 1 }
  else
    { p with value_type := value_type }

/-- `gsk_resource_cache_set_name`: interns the name; note the source has
no `priv->resources == NULL` guard here. -/
def gsk_resource_cache_set_name (p : GskResourceCachePrivate)
    (name : Option String) : GskResourceCachePrivate :=
  { p with name := name }

/-- `resource_cache_item_new`, returning the item (or `NULL`) together
with the number of `g_critical` diagnostics it emitted. -/
def resource_cache_item_new (value_type : GType) (value : Gpointer) :
    Option ResourceCacheItem × Nat :=
  if value_type = GType.invalid then
    (none, 1)
  else
    match gTypeFundamental value_type with
    | .pointer =>
        (some { value_type := value_type, value := value,
                last_access_time := 0, age := 1 }, 0)
    | .boxed =>
        (some { value_type := value_type, value := value.map g_boxed_copy,
                last_access_time := 0, age := 1 }, 0)
    | .object =>
        (some { value_type := value_type, value := value.map g_object_ref,
                last_access_time := 0, age := 1 }, 0)
    | _ => (none, 1)

/-- `resource_cache_item_get_value`: stamps `last_access_time` with the
current monotonic time and returns the stored value. -/
def resource_cache_item_get_value (item : ResourceCacheItem) (now : Int) :
    ResourceCacheItem × Gpointer :=
  ({ item with last_access_time := now }, item.value)

/-- `gsk_resource_cache_add_item`: lazily allocates the table, bumps the
age of an existing entry, otherwise builds and inserts a new item. -/
def gsk_resource_cache_add_item (p : GskResourceCachePrivate) (key : Key)
    (value : Gpointer) : GskResourceCachePrivate :=
  let t := p.resources.getD []
  match tableLookup t key with
  | some item =>
      { p with resources := some (tableUpdate t key { item with age := item.age + 1 }) }
  | none =>
      match resource_cache_item_new p.value_type value with
      | (some item, c) =>
          { p with resources := some (tableInsert t key item),
                   criticals := p.criticals + c }
      | (none, c) =>
          { p with resources := some t, criticals := p.criticals + c }

/-- `gsk_resource_cache_has_item`. -/
def gsk_resource_cache_has_item (p : GskResourceCachePrivate) (key : Key) : Bool :=
  match p.resources with
  | none => false
  | some t => (tableLookup t key).isSome

/-- `gsk_resource_cache_get_item`, threading the current monotonic time. -/
def gsk_resource_cache_get_item (p : GskResourceCachePrivate) (key : Key)
    (now : Int) : GskResourceCachePrivate × Gpointer :=
  match p.resources with
  | none => (p, none)
  | some t =>
      match tableLookup t key with
      | none => (p, none)
      | some item =>
          let r := resource_cache_item_get_value item now
          ({ p with resources := some (tableUpdate t key r.1) }, r.2)

/-- `gsk_resource_cache_invalidate_item`: decrement the age, clamping a
negative result back to `0` with a `g_critical` diagnostic. -/
def gsk_resource_cache_invalidate_item (p : GskResourceCachePrivate)
    (key : Key) : GskResourceCachePrivate × Bool :=
  match p.resources with
  | none => (p, false)
  | some t =>
      match tableLookup t key with
      | none => (p, false)
      | some item =>
          let a := item.age - 1
          if a < 0 then
            ({ p with resources := some (tableUpdate t key { item with age := 0 }),
                      criticals := p.criticals + 1 }, true)
          else
            ({ p with resources := some (tableUpdate t key { item with age := a }) }, true)

/-- The body of the `GHashTableIter` loop of
`gsk_resource_cache_collect_items`: remove age-0 entries counting them,
decrement the age of the rest. -/
def collectLoop : Table → Table × Nat
  | [] => ([], 0)
  | e :: rest =>
      let r := collectLoop rest
      if e.2.age = 0 then (r.1, r.2 + 1)
      else ((e.1, { e.2 with age := e.2.age - 1 }) :: r.1, r.2)

/-- `gsk_resource_cache_collect_items`: one sweep, returning the new
state and the number of entries removed. -/
def gsk_resource_cache_collect_items (p : GskResourceCachePrivate) :
    GskResourceCachePrivate × Nat :=
  match p.resources with
  | none => (p, 0)
  | some t =>
      let r := collectLoop t
      ({ p with resources := some r.1 }, r.2)

/-- Age of the entry stored under `key`, if any. -/
def ageOf (p : GskResourceCachePrivate) (key : Key) : Option Int :=
  match p.resources with
  | none => none
  | some t => (tableLookup t key).map (fun item => item.age)

/-- One call of the public interface, for reachability statements. -/
inductive CacheOp where
  | set_hash_func (key_hash : Nat)
  | set_equal_func (key_equal : Nat)
  | set_free_func (key_notify : Nat)
  | set_value_type (value_type : GType)
  | set_name (name : Option String)
  | add (key : Key) (value : Gpointer)
  | get (key : Key) (now : Int)
  | has (key : Key)
  | invalidate (key : Key)
  | collect

/-- Apply one public call to the cache state (return values dropped;
`has` does not mutate the state). -/
def applyOp (p : GskResourceCachePrivate) : CacheOp → GskResourceCachePrivate
  | .set_hash_func h => gsk_resource_cache_set_hash_func p h
  | .set_equal_func e => gsk_resource_cache_set_equal_func p e
  | .set_free_func f => gsk_resource_cache_set_free_func p f
  | .set_value_type vt => gsk_resource_cache_set_value_type p vt
  | .set_name n => gsk_resource_cache_set_name p n
  | .add k v => gsk_resource_cache_add_item p k v
  | .get k now => (gsk_resource_cache_get_item p k now).1
  | .has _ => p
  | .invalidate k => (gsk_resource_cache_invalidate_item p k).1
  | .collect => (gsk_resource_cache_collect_items p).1

/-- Run a finite sequence of public calls. -/
def runOps (p : GskResourceCachePrivate) : List CacheOp → GskResourceCachePrivate
  | [] => p
  | op :: ops => runOps (applyOp p op) ops

/-- Every entry of the cache has a non-negative age. -/
def agesOK (p : GskResourceCachePrivate) : Prop :=
  ∀ t, p.resources = some t → ∀ e ∈ t, 0 ≤ e.2.age

/-- A value type the cache supports: fundamental pointer, boxed or
object. -/
def supportedKind (vt : GType) : Prop :=
  gTypeFundamental vt = Fundamental.pointer ∨
  gTypeFundamental vt = Fundamental.boxed ∨
  gTypeFundamental vt = Fundamental.object

instance (vt : GType) : Decidable (supportedKind vt) := by
  unfold supportedKind; infer_instance

/-- The keys-and-ages view of a table; `get` leaves it unchanged. -/
def agesShape (t : Table) : List (Key × Int) :=
  t.map (fun e => (e.1, e.2.age))

/-- The keys-and-ages view of the cache. -/
def shapeOf (p : GskResourceCachePrivate) : Option (List (Key × Int)) :=
  p.resources.map agesShape

/-- A sequence of `get` calls on one key at the given times. -/
def applyGets (p : GskResourceCachePrivate) (k : Key) : List Int → GskResourceCachePrivate
  | [] => p
  | now :: rest => applyGets (gsk_resource_cache_get_item p k now).1 k rest

theorem tableLookup_eq_none_iff (t : Table) (k : Key) :
    tableLookup t k = none ↔ ∀ e ∈ t, e.1 ≠ k := by
  induction t with
  | nil => simp [tableLookup]
  | cons e rest ih =>
    by_cases h : e.1 = k <;> simp [tableLookup, h, ih]

theorem tableLookup_isSome_iff (t : Table) (k : Key) :
    (tableLookup t k).isSome = true ↔ ∃ e ∈ t, e.1 = k := by
  induction t with
  | nil => simp [tableLookup]
  | cons e rest ih =>
    by_cases h : e.1 = k <;> simp [tableLookup, h, ih]

theorem tableLookup_mem (t : Table) (k : Key) (item : ResourceCacheItem)
    (h : tableLookup t k = some item) : (k, item) ∈ t := by
  induction t with
  | nil => simp [tableLookup] at h
  | cons e rest ih =>
    obtain ⟨e1, e2⟩ := e
    by_cases hk : e1 = k
    · simp [tableLookup, hk] at h
      simp [List.mem_cons, hk, h]
    · simp [tableLookup, hk] at h
      exact List.mem_cons_of_mem _ (ih h)

theorem tableLookup_append_of_none (t t' : Table) (k : Key)
    (h : tableLookup t k = none) :
    tableLookup (t ++ t') k = tableLookup t' k := by
  induction t with
  | nil => rfl
  | cons e rest ih =>
    by_cases hk : e.1 = k
    · simp [tableLookup, hk] at h
    · simp only [tableLookup, hk, if_neg, not_false_iff] at h ⊢
      exact ih h

theorem tableLookup_update_self (t : Table) (k : Key)
    (item it' : ResourceCacheItem) (h : tableLookup t k = some item) :
    tableLookup (tableUpdate t k it') k = some it' := by
  induction t with
  | nil => simp [tableLookup] at h
  | cons e rest ih =>
    by_cases hk : e.1 = k
    · simp [tableLookup, tableUpdate, hk]
    · simp only [tableLookup, tableUpdate, hk, if_neg, not_false_iff] at h ⊢
      exact ih h

theorem tableLookup_update_other (t : Table) (k k' : Key)
    (it' : ResourceCacheItem) (hne : k ≠ k') :
    tableLookup (tableUpdate t k it') k' = tableLookup t k' := by
  induction t with
  | nil => rfl
  | cons e rest ih =>
    by_cases hk : e.1 = k
    · simp only [tableUpdate, hk, if_pos]
      have h1 : e.1 ≠ k' := by rw [hk]; exact hne
      simp [tableLookup, h1, hne]
    · simp only [tableUpdate, hk, if_neg, not_false_iff]
      by_cases hk' : e.1 = k' <;> simp [tableLookup, hk', ih]

theorem mem_tableUpdate (t : Table) (k : Key) (item : ResourceCacheItem)
    (e : Key × ResourceCacheItem) (h : e ∈ tableUpdate t k item) :
    e ∈ t ∨ e.2 = item := by
  induction t with
  | nil => simp [tableUpdate] at h
  | cons e₀ rest ih =>
    by_cases hk : e₀.1 = k
    · simp only [tableUpdate, hk, if_pos, List.mem_cons] at h
      rcases h with h | h
      · right; rw [h]
      · left; exact List.mem_cons_of_mem _ h
    · simp only [tableUpdate, hk, if_neg, not_false_iff, List.mem_cons] at h
      rcases h with h | h
      · left; simp [h]
      · rcases ih h with h' | h'
        · left; exact List.mem_cons_of_mem _ h'
        · right; exact h'

theorem agesShape_update (t : Table) (k : Key) (item it' : ResourceCacheItem)
    (h : tableLookup t k = some item) (hage : it'.age = item.age) :
    agesShape (tableUpdate t k it') = agesShape t := by
  induction t with
  | nil => rfl
  | cons e rest ih =>
    by_cases hk : e.1 = k
    · simp only [tableLookup, hk, if_pos, Option.some.injEq] at h
      subst h
      simp [tableUpdate, agesShape, hk, hage]
    · simp only [tableLookup, hk, if_neg, not_false_iff] at h
      simp only [tableUpdate, hk, if_neg, not_false_iff, agesShape, List.map_cons]
      have h2 := ih h
      simp only [agesShape] at h2
      rw [h2]

theorem collectLoop_eq (t : Table) :
    collectLoop t =
      ((t.filter (fun e => e.2.age ≠ 0)).map
          (fun e => (e.1, { e.2 with age := e.2.age - 1 })),
        t.countP (fun e => e.2.age = 0)) := by
  induction t with
  | nil => rfl
  | cons e rest ih =>
    by_cases h : e.2.age = 0 <;>
      simp [collectLoop, ih, List.filter_cons, List.countP_cons, h]

theorem collectLoop_perm (t t' : Table) (h : t.Perm t') :
    (collectLoop t).2 = (collectLoop t').2 ∧
      (collectLoop t).1.Perm (collectLoop t').1 := by
  rw [collectLoop_eq, collectLoop_eq]
  exact ⟨h.countP_eq _, (h.filter _).map _⟩

theorem resource_cache_item_new_supported (vt : GType) (v : Gpointer)
    (h : supportedKind vt) :
    resource_cache_item_new vt v =
      (some { value_type := vt, value := v, last_access_time := 0, age := 1 }, 0) := by
  cases vt with
  | invalid => simp [supportedKind, gTypeFundamental] at h
  | pointer => rfl
  | boxed id => cases v <;> rfl
  | object id => cases v <;> rfl
  | other id => simp [supportedKind, gTypeFundamental] at h

theorem resource_cache_item_new_age (vt : GType) (v : Gpointer)
    (item : ResourceCacheItem)
    (h : (resource_cache_item_new vt v).1 = some item) : item.age = 1 := by
  unfold resource_cache_item_new at h
  split at h
  · simp at h
  · split at h <;> simp only [Option.some.injEq] at h <;>
      first
      | (subst h; rfl)
      | simp at h

theorem shapeOf_get (p : GskResourceCachePrivate) (k : Key) (now : Int) :
    shapeOf (gsk_resource_cache_get_item p k now).1 = shapeOf p := by
  cases hres : p.resources with
  | none => simp [gsk_resource_cache_get_item, hres]
  | some t =>
    cases hlk : tableLookup t k with
    | none => simp [gsk_resource_cache_get_item, hres, hlk]
    | some item =>
      simp only [gsk_resource_cache_get_item, hres, hlk, shapeOf,
        resource_cache_item_get_value, Option.map]
      rw [agesShape_update t k item { item with last_access_time := now } hlk rfl]

theorem shapeOf_applyGets (p : GskResourceCachePrivate) (k : Key)
    (nows : List Int) : shapeOf (applyGets p k nows) = shapeOf p := by
  induction nows generalizing p with
  | nil => rfl
  | cons now rest ih =>
    rw [applyGets, ih, shapeOf_get]

theorem collect_count_shape (p : GskResourceCachePrivate) :
    (gsk_resource_cache_collect_items p).2 =
      match shapeOf p with
      | none => 0
      | some s => s.countP (fun e => e.2 = 0) := by
  cases hres : p.resources with
  | none => simp [gsk_resource_cache_collect_items, shapeOf, hres]
  | some t =>
    simp only [gsk_resource_cache_collect_items, shapeOf, hres, Option.map,
      collectLoop_eq, agesShape, List.countP_map]
    rfl

/-- The keys-and-ages view of one collection sweep. -/
def shapeCollect (s : List (Key × Int)) : List (Key × Int) :=
  (s.filter (fun e => e.2 ≠ 0)).map (fun e => (e.1, e.2 - 1))

theorem shapeOf_collect (p : GskResourceCachePrivate) :
    shapeOf (gsk_resource_cache_collect_items p).1 = (shapeOf p).map shapeCollect := by
  cases hres : p.resources with
  | none => simp [gsk_resource_cache_collect_items, shapeOf, hres]
  | some t =>
    simp only [gsk_resource_cache_collect_items, shapeOf, hres, Option.map,
      collectLoop_eq, shapeCollect, agesShape, Option.some.injEq]
    rw [List.filter_map, List.map_map, List.map_map]
    rfl

theorem tableLookup_isSome_any (t : Table) (k : Key) :
    (tableLookup t k).isSome = (agesShape t).any (fun e => e.1 = k) := by
  induction t with
  | nil => rfl
  | cons e rest ih =>
    by_cases hk : e.1 = k
    · simp [tableLookup, agesShape, hk]
    · simp [tableLookup, agesShape, hk] at ih ⊢
      simpa [agesShape] using ih

theorem has_shape (p : GskResourceCachePrivate) (k : Key) :
    gsk_resource_cache_has_item p k =
      match shapeOf p with
      | none => false
      | some s => s.any (fun e => e.1 = k) := by
  cases hres : p.resources with
  | none => simp [gsk_resource_cache_has_item, shapeOf, hres]
  | some t =>
    simp only [gsk_resource_cache_has_item, shapeOf, hres, Option.map]
    exact tableLookup_isSome_any t k

theorem agesOK_of_resources_eq (p q : GskResourceCachePrivate)
    (he : q.resources = p.resources) (h : agesOK p) : agesOK q := by
  intro t ht e hm
  exact h t (he ▸ ht) e hm

theorem agesOK_table (p : GskResourceCachePrivate) (h : agesOK p) :
    ∀ e ∈ p.resources.getD [], 0 ≤ e.2.age := by
  cases hres : p.resources with
  | none => intro e he; simp at he
  | some t0 => intro e he; exact h t0 hres e (by simpa using he)

theorem agesOK_add (p : GskResourceCachePrivate) (k : Key) (v : Gpointer)
    (h : agesOK p) : agesOK (gsk_resource_cache_add_item p k v) := by
  have htOK := agesOK_table p h
  simp only [gsk_resource_cache_add_item]
  cases hlk : tableLookup (p.resources.getD []) k with
  | some item =>
    simp only [hlk]
    intro t' ht' e he
    simp only [Option.some.injEq] at ht'
    rcases mem_tableUpdate _ _ _ _ (ht' ▸ he) with hm | hm
    · exact htOK e hm
    · rw [hm]
      have := htOK _ (tableLookup_mem _ _ _ hlk)
      simp only at this ⊢
      omega
  | none =>
    simp only [hlk]
    cases hnew : resource_cache_item_new p.value_type v with
    | mk oi c =>
      cases oi with
      | some item =>
        simp only []
        intro t' ht' e he
        simp only [Option.some.injEq] at ht'
        rw [← ht', tableInsert, List.mem_append] at he
        rcases he with hm | hm
        · exact htOK e hm
        · simp only [List.mem_singleton] at hm
          rw [hm]
          have hage : item.age = 1 :=
            resource_cache_item_new_age p.value_type v item (by rw [hnew])
          simp [hage]
      | none =>
        simp only []
        intro t' ht' e he
        simp only [Option.some.injEq] at ht'
        exact htOK e (ht' ▸ he)

theorem agesOK_get (p : GskResourceCachePrivate) (k : Key) (now : Int)
    (h : agesOK p) : agesOK (gsk_resource_cache_get_item p k now).1 := by
  cases hres : p.resources with
  | none => simpa [gsk_resource_cache_get_item, hres] using h
  | some t =>
    cases hlk : tableLookup t k with
    | none => simpa [gsk_resource_cache_get_item, hres, hlk] using h
    | some item =>
      simp only [gsk_resource_cache_get_item, hres, hlk,
        resource_cache_item_get_value]
      intro t' ht' e he
      simp only [Option.some.injEq] at ht'
      rcases mem_tableUpdate _ _ _ _ (ht' ▸ he) with hm | hm
      · exact h t hres e hm
      · rw [hm]
        exact h t hres _ (tableLookup_mem _ _ _ hlk)

theorem agesOK_invalidate (p : GskResourceCachePrivate) (k : Key)
    (h : agesOK p) : agesOK (gsk_resource_cache_invalidate_item p k).1 := by
  cases hres : p.resources with
  | none => simpa [gsk_resource_cache_invalidate_item, hres] using h
  | some t =>
    cases hlk : tableLookup t k with
    | none => simpa [gsk_resource_cache_invalidate_item, hres, hlk] using h
    | some item =>
      simp only [gsk_resource_cache_invalidate_item, hres, hlk]
      by_cases hneg : item.age - 1 < 0
      · simp only [hneg, if_pos]
        intro t' ht' e he
        simp only [Option.some.injEq] at ht'
        rcases mem_tableUpdate _ _ _ _ (ht' ▸ he) with hm | hm
        · exact h t hres e hm
        · rw [hm]
      · simp only [hneg, if_neg, not_false_iff]
        intro t' ht' e he
        simp only [Option.some.injEq] at ht'
        rcases mem_tableUpdate _ _ _ _ (ht' ▸ he) with hm | hm
        · exact h t hres e hm
        · rw [hm]
          show (0 : Int) ≤ item.age - 1
          omega

theorem agesOK_collect (p : GskResourceCachePrivate)
    (h : agesOK p) : agesOK (gsk_resource_cache_collect_items p).1 := by
  cases hres : p.resources with
  | none => simpa [gsk_resource_cache_collect_items, hres] using h
  | some t =>
    simp only [gsk_resource_cache_collect_items, hres, collectLoop_eq]
    intro t' ht' e he
    simp only [Option.some.injEq] at ht'
    rw [← ht', List.mem_map] at he
    obtain ⟨e0, he0, hdec⟩ := he
    rw [List.mem_filter] at he0
    obtain ⟨hmem, hne0⟩ := he0
    have h0 := h t hres e0 hmem
    have hne0' : e0.2.age ≠ 0 := by simpa using hne0
    rw [← hdec]
    simp only
    omega

theorem agesOK_applyOp (p : GskResourceCachePrivate) (op : CacheOp)
    (h : agesOK p) : agesOK (applyOp p op) := by
  cases op with
  | set_hash_func x =>
    refine agesOK_of_resources_eq p _ ?_ h
    simp only [applyOp, gsk_resource_cache_set_hash_func]
    split <;> rfl
  | set_equal_func x =>
    refine agesOK_of_resources_eq p _ ?_ h
    simp only [applyOp, gsk_resource_cache_set_equal_func]
    split <;> rfl
  | set_free_func x =>
    refine agesOK_of_resources_eq p _ ?_ h
    simp only [applyOp, gsk_resource_cache_set_free_func]
    split <;> rfl
  | set_value_type x =>
    refine agesOK_of_resources_eq p _ ?_ h
    simp only [applyOp, gsk_resource_cache_set_value_type]
    split
    · rfl
    · split
      · rfl
      · split <;> rfl
  | set_name x =>
    exact agesOK_of_resources_eq p _ rfl h
  | add k v => exact agesOK_add p k v h
  | get k now => exact agesOK_get p k now h
  | has k => exact h
  | invalidate k => exact agesOK_invalidate p k h
  | collect => exact agesOK_collect p h

theorem agesOK_runOps (p : GskResourceCachePrivate) (ops : List CacheOp)
    (h : agesOK p) : agesOK (runOps p ops) := by
  induction ops generalizing p with
  | nil => exact h
  | cons op ops ih => exact ih _ (agesOK_applyOp p op h)

theorem agesOK_new (name : Option String) :
    agesOK (gsk_resource_cache_new name) := by
  intro t ht
  cases ht

theorem tableLookup_insert_self (t : Table) (k : Key) (item : ResourceCacheItem)
    (habs : tableLookup t k = none) :
    tableLookup (tableInsert t k item) k = some item := by
  rw [tableInsert, tableLookup_append_of_none _ _ _ habs]
  simp [tableLookup]

theorem add_present (p : GskResourceCachePrivate) (t : Table) (k : Key)
    (item : ResourceCacheItem) (v : Gpointer) (hres : p.resources = some t)
    (hlk : tableLookup t k = some item) :
    gsk_resource_cache_add_item p k v =
      { p with resources := some (tableUpdate t k { item with age := item.age + 1 }) } := by
  simp only [gsk_resource_cache_add_item, hres, Option.getD_some, hlk]

theorem add_absent (p : GskResourceCachePrivate) (k : Key) (v : Gpointer)
    (hvt : supportedKind p.value_type)
    (habs : tableLookup (p.resources.getD []) k = none) :
    gsk_resource_cache_add_item p k v =
      { p with resources := some (tableInsert (p.resources.getD []) k
          { value_type := p.value_type, value := v, last_access_time := 0, age := 1 }) } := by
  simp only [gsk_resource_cache_add_item, habs,
    resource_cache_item_new_supported p.value_type v hvt, Nat.add_zero]

theorem add_invalid_type (p : GskResourceCachePrivate) (k : Key) (v : Gpointer)
    (hvt : p.value_type = GType.invalid)
    (habs : tableLookup (p.resources.getD []) k = none) :
    gsk_resource_cache_add_item p k v =
      { p with resources := some (p.resources.getD []),
               criticals := p.criticals + 1 } := by
  simp only [gsk_resource_cache_add_item, habs, resource_cache_item_new, hvt,
    if_pos]

theorem get_hit (p : GskResourceCachePrivate) (t : Table) (k : Key)
    (item : ResourceCacheItem) (now : Int) (hres : p.resources = some t)
    (hlk : tableLookup t k = some item) :
    gsk_resource_cache_get_item p k now =
      ({ p with resources := some (tableUpdate t k { item with last_access_time := now }) },
        item.value) := by
  simp only [gsk_resource_cache_get_item, hres, hlk, resource_cache_item_get_value]

theorem get_miss (p : GskResourceCachePrivate) (k : Key) (now : Int)
    (habs : tableLookup (p.resources.getD []) k = none) :
    gsk_resource_cache_get_item p k now = (p, none) := by
  cases hres : p.resources with
  | none => simp [gsk_resource_cache_get_item, hres]
  | some t =>
    rw [hres] at habs
    simp only [Option.getD_some] at habs
    simp [gsk_resource_cache_get_item, hres, habs]

theorem invalidate_present (p : GskResourceCachePrivate) (t : Table) (k : Key)
    (item : ResourceCacheItem) (hres : p.resources = some t)
    (hlk : tableLookup t k = some item) :
    gsk_resource_cache_invalidate_item p k =
      (if item.age - 1 < 0 then
        ({ p with resources := some (tableUpdate t k { item with age := 0 }),
                  criticals := p.criticals + 1 }, true)
       else
        ({ p with resources := some (tableUpdate t k { item with age := item.age - 1 }) },
          true)) := by
  simp only [gsk_resource_cache_invalidate_item, hres, hlk]

theorem invalidate_absent (p : GskResourceCachePrivate) (k : Key)
    (habs : tableLookup (p.resources.getD []) k = none) :
    gsk_resource_cache_invalidate_item p k = (p, false) := by
  cases hres : p.resources with
  | none => simp [gsk_resource_cache_invalidate_item, hres]
  | some t =>
    rw [hres] at habs
    simp only [Option.getD_some] at habs
    simp [gsk_resource_cache_invalidate_item, hres, habs]

theorem collect_some (p : GskResourceCachePrivate) (t : Table)
    (hres : p.resources = some t) :
    gsk_resource_cache_collect_items p =
      ({ p with resources := some ((t.filter (fun e => e.2.age ≠ 0)).map
          (fun e => (e.1, { e.2 with age := e.2.age - 1 }))) },
        t.countP (fun e => e.2.age = 0)) := by
  simp only [gsk_resource_cache_collect_items, hres, collectLoop_eq]

theorem ageOf_get (p : GskResourceCachePrivate) (k : Key) (now : Int) (k' : Key) :
    ageOf (gsk_resource_cache_get_item p k now).1 k' = ageOf p k' := by
  cases hres : p.resources with
  | none => simp [gsk_resource_cache_get_item, hres]
  | some t =>
    cases hlk : tableLookup t k with
    | none => simp [gsk_resource_cache_get_item, hres, hlk]
    | some item =>
      rw [get_hit p t k item now hres hlk]
      simp only [ageOf, hres]
      by_cases hk : k = k'
      · subst hk
        rw [tableLookup_update_self t k item { item with last_access_time := now } hlk,
          hlk]
        rfl
      · rw [tableLookup_update_other t k k' _ hk]

theorem ageOf_eq (p : GskResourceCachePrivate) (t : Table) (k : Key)
    (item : ResourceCacheItem) (hres : p.resources = some t)
    (hlk : tableLookup t k = some item) : ageOf p k = some item.age := by
  simp [ageOf, hres, hlk]

/-- A cache configured for raw pointer values, as after an intended
`set_value_type (G_TYPE_POINTER)`. -/
def rawCache : GskResourceCachePrivate :=
  { gsk_resource_cache_new none with value_type := GType.pointer }

/-- A cache configured for a boxed value type. -/
def boxedCache : GskResourceCachePrivate :=
  { gsk_resource_cache_new none with value_type := GType.boxed 7 }

/-- An item of the given age, for concrete sweep scenarios. -/
def itemAged (a : Int) : ResourceCacheItem :=
  { value_type := GType.pointer, value := some 0, last_access_time := 0, age := a }

/-- A cache holding entries of ages 0, 0, 1 and 2. -/
def cacheAges0012 : GskResourceCachePrivate :=
  { rawCache with
      resources := some [(1, itemAged 0), (2, itemAged 0), (3, itemAged 1), (4, itemAged 2)] }

/-- C5: in every cache state reachable by a finite sequence of public
calls (`set_*`, `add`, `get`, `has`, `invalidate`, `collect`) from a
freshly constructed cache, every entry's age is non-negative. -/
theorem gsk_age_nonneg_invariant (name : Option String) (ops : List CacheOp) :
    agesOK (runOps (gsk_resource_cache_new name) ops) :=
  agesOK_runOps _ ops (agesOK_new name)

/-- C5 witness: the invariant instantiated on a concrete call sequence
that adds, invalidates twice and collects. -/
theorem gsk_age_nonneg_invariant_witness :
    agesOK (runOps (gsk_resource_cache_new none)
      [CacheOp.add 1 (some 5), CacheOp.invalidate 1, CacheOp.invalidate 1,
        CacheOp.collect]) :=
  gsk_age_nonneg_invariant none
    [CacheOp.add 1 (some 5), CacheOp.invalidate 1, CacheOp.invalidate 1,
      CacheOp.collect]

/-- C3: `collect()` removes exactly the entries whose age is 0,
decrements the age of every surviving entry by 1, returns the number of
entries removed, and both the count and the surviving entries are
independent of the iteration order (invariant under permutation of the
table). -/
theorem gsk_collect_removes_zero_aged (p : GskResourceCachePrivate) (t : Table)
    (hres : p.resources = some t) :
    ((gsk_resource_cache_collect_items p).2 = t.countP (fun e => e.2.age = 0) ∧
      (gsk_resource_cache_collect_items p).1.resources =
        some ((t.filter (fun e => e.2.age ≠ 0)).map
          (fun e => (e.1, { e.2 with age := e.2.age - 1 })))) ∧
    ∀ t', t.Perm t' →
      (collectLoop t).2 = (collectLoop t').2 ∧
        (collectLoop t).1.Perm (collectLoop t').1 := by
  constructor
  · rw [collect_some p t hres]
    exact ⟨rfl, rfl⟩
  · intro t' hp
    exact collectLoop_perm t t' hp

/-- C3 witness: on a cache with entries at ages 0, 0, 1, 2, `collect`
returns 2 and the two surviving entries have ages 0 and 1. -/
theorem gsk_collect_removes_zero_aged_witness :
    (gsk_resource_cache_collect_items cacheAges0012).2 = 2 ∧
      ((gsk_resource_cache_collect_items cacheAges0012).1.resources.getD []).map
        (fun e => e.2.age) = [0, 1] := by
  have h := gsk_collect_removes_zero_aged cacheAges0012
    [(1, itemAged 0), (2, itemAged 0), (3, itemAged 1), (4, itemAged 2)] rfl
  refine ⟨h.1.1.trans (by decide), ?_⟩
  rw [h.1.2]
  decide

/-- C7 (code bug): the admissibility test of
`gsk_resource_cache_set_value_type` chains `!=` with `||`, which is a
tautology, so the function never records any declared value kind — it
rejects even the three documented admissible kinds with a diagnostic,
contradicting its own documentation; here shown in general and on the
concrete input `G_TYPE_POINTER`. -/
theorem gsk_set_value_type_never_records :
    (∀ (p : GskResourceCachePrivate) (vt : GType),
        (gsk_resource_cache_set_value_type p vt).value_type = p.value_type) ∧
    (gsk_resource_cache_set_value_type (gsk_resource_cache_new none)
        GType.pointer).value_type = GType.invalid ∧
    (gsk_resource_cache_set_value_type (gsk_resource_cache_new none)
        GType.pointer).criticals = 1 := by
  refine ⟨?_, rfl, rfl⟩
  intro p vt
  unfold gsk_resource_cache_set_value_type
  split
  · rfl
  · split
    · rfl
    · split
      · rfl
      · next hcond =>
          push_neg at hcond
          obtain ⟨h1, h2, h3⟩ := hcond
          exact absurd (h1.symm.trans h2) (by decide)

/-- C1: `add` on a key already present bumps that entry's age by exactly
1 and leaves everything else, in particular the stored value, untouched
(the new value is discarded); consequently after `add(k, v1)` then
`add(k, v2)` on a validly configured cache, `get(k)` returns `v1` and
the entry's age is 2. -/
theorem gsk_add_existing_bumps_age_keeps_value :
    (∀ (p : GskResourceCachePrivate) (t : Table) (k : Key)
        (item : ResourceCacheItem) (v2 : Gpointer),
        p.resources = some t → tableLookup t k = some item →
        gsk_resource_cache_add_item p k v2 =
          { p with resources := some (tableUpdate t k { item with age := item.age + 1 }) }) ∧
    (∀ (p : GskResourceCachePrivate) (k : Key) (v1 v2 : Gpointer) (now : Int),
        supportedKind p.value_type →
        tableLookup (p.resources.getD []) k = none →
        (gsk_resource_cache_get_item
            (gsk_resource_cache_add_item (gsk_resource_cache_add_item p k v1) k v2)
            k now).2 = v1 ∧
        ageOf (gsk_resource_cache_add_item
            (gsk_resource_cache_add_item p k v1) k v2) k = some 2) := by
  constructor
  · intro p t k item v2 hres hlk
    exact add_present p t k item v2 hres hlk
  · intro p k v1 v2 now hvt habs
    set it1 : ResourceCacheItem :=
      { value_type := p.value_type, value := v1, last_access_time := 0, age := 1 }
      with hit1
    set t1 : Table := tableInsert (p.resources.getD []) k it1 with ht1
    have h1 : gsk_resource_cache_add_item p k v1 =
        { p with resources := some t1 } := add_absent p k v1 hvt habs
    have hres1 : (gsk_resource_cache_add_item p k v1).resources = some t1 := by
      rw [h1]
    have hlk1 : tableLookup t1 k = some it1 :=
      tableLookup_insert_self _ k it1 habs
    have h2 := add_present (gsk_resource_cache_add_item p k v1) t1 k it1 v2 hres1 hlk1
    have hres2 : (gsk_resource_cache_add_item
        (gsk_resource_cache_add_item p k v1) k v2).resources =
        some (tableUpdate t1 k { it1 with age := it1.age + 1 }) := by
      rw [h2]
    have hlk2 : tableLookup (tableUpdate t1 k { it1 with age := it1.age + 1 }) k =
        some { it1 with age := it1.age + 1 } :=
      tableLookup_update_self t1 k it1 _ hlk1
    constructor
    · rw [get_hit _ _ k _ now hres2 hlk2]
    · rw [ageOf_eq _ _ k _ hres2 hlk2]
      simp [hit1]

/-- C1 witness: the add-add scenario on a raw-pointer cache with
`v1 = 5` and `v2 = 9`: `get` returns 5 and the age is 2. -/
theorem gsk_add_existing_bumps_age_keeps_value_witness :
    (gsk_resource_cache_get_item
        (gsk_resource_cache_add_item
          (gsk_resource_cache_add_item rawCache 1 (some 5)) 1 (some 9)) 1 0).2 =
      some 5 ∧
    ageOf (gsk_resource_cache_add_item
        (gsk_resource_cache_add_item rawCache 1 (some 5)) 1 (some 9)) 1 = some 2 :=
  gsk_add_existing_bumps_age_keeps_value.2 rawCache 1 (some 5) (some 9) 0
    (by decide) (by decide)

/-- C2: on a validly configured cache, a fresh `add(k, v)` creates the
entry with age 1, so one `collect()` leaves `has(k)` true and a second
`collect()` with no intervening add leaves `has(k)` false. -/
theorem gsk_add_collect_grace_period (p : GskResourceCachePrivate) (k : Key)
    (v : Gpointer) (hvt : supportedKind p.value_type)
    (habs : tableLookup (p.resources.getD []) k = none) :
    ageOf (gsk_resource_cache_add_item p k v) k = some 1 ∧
    gsk_resource_cache_has_item
      (gsk_resource_cache_collect_items (gsk_resource_cache_add_item p k v)).1 k =
      true ∧
    gsk_resource_cache_has_item
      (gsk_resource_cache_collect_items
        (gsk_resource_cache_collect_items
          (gsk_resource_cache_add_item p k v)).1).1 k = false := by
  set it1 : ResourceCacheItem :=
    { value_type := p.value_type, value := v, last_access_time := 0, age := 1 }
    with hit1
  set t1 : Table := tableInsert (p.resources.getD []) k it1 with ht1
  have h1 : gsk_resource_cache_add_item p k v =
      { p with resources := some t1 } := add_absent p k v hvt habs
  have hres1 : (gsk_resource_cache_add_item p k v).resources = some t1 := by
    rw [h1]
  have hlk1 : tableLookup t1 k = some it1 :=
    tableLookup_insert_self _ k it1 habs
  set t2 : Table := (t1.filter (fun e => e.2.age ≠ 0)).map
    (fun e => (e.1, { e.2 with age := e.2.age - 1 })) with ht2
  have hres2 : (gsk_resource_cache_collect_items
      (gsk_resource_cache_add_item p k v)).1.resources = some t2 := by
    rw [collect_some _ t1 hres1]
  set t3 : Table := (t2.filter (fun e => e.2.age ≠ 0)).map
    (fun e => (e.1, { e.2 with age := e.2.age - 1 })) with ht3
  have hres3 : (gsk_resource_cache_collect_items
      (gsk_resource_cache_collect_items
        (gsk_resource_cache_add_item p k v)).1).1.resources = some t3 := by
    rw [collect_some _ t2 hres2]
  have hkeys : ∀ e ∈ p.resources.getD [], e.1 ≠ k :=
    (tableLookup_eq_none_iff _ k).1 habs
  refine ⟨?_, ?_, ?_⟩
  · rw [ageOf_eq _ t1 k it1 hres1 hlk1]
  · simp only [gsk_resource_cache_has_item, hres2]
    rw [tableLookup_isSome_iff]
    refine ⟨(k, { it1 with age := it1.age - 1 }), ?_, rfl⟩
    rw [ht2]
    refine List.mem_map.2 ⟨(k, it1), List.mem_filter.2 ⟨?_, ?_⟩, rfl⟩
    · rw [ht1, tableInsert]
      exact List.mem_append_right _ (List.mem_singleton.2 rfl)
    · simp [hit1]
  · simp only [gsk_resource_cache_has_item, hres3]
    have hnone : tableLookup t3 k = none := by
      rw [tableLookup_eq_none_iff]
      intro e he
      rw [ht3] at he
      rcases List.mem_map.1 he with ⟨e2, he2, rfl⟩
      rcases List.mem_filter.1 he2 with ⟨he2t, hne2⟩
      rw [ht2] at he2t
      rcases List.mem_map.1 he2t with ⟨e1, he1, rfl⟩
      rcases List.mem_filter.1 he1 with ⟨he1t, hne1⟩
      rw [ht1, tableInsert, List.mem_append] at he1t
      rcases he1t with hmem | hmem
      · exact hkeys e1 hmem
      · rw [List.mem_singleton] at hmem
        subst hmem
        simp [hit1] at hne2
    rw [hnone]
    rfl

/-- C2 witness: the grace-period scenario on a raw-pointer cache and a
fresh key. -/
theorem gsk_add_collect_grace_period_witness :
    ageOf (gsk_resource_cache_add_item rawCache 1 (some 5)) 1 = some 1 ∧
    gsk_resource_cache_has_item
      (gsk_resource_cache_collect_items
        (gsk_resource_cache_add_item rawCache 1 (some 5))).1 1 = true ∧
    gsk_resource_cache_has_item
      (gsk_resource_cache_collect_items
        (gsk_resource_cache_collect_items
          (gsk_resource_cache_add_item rawCache 1 (some 5))).1).1 1 = false :=
  gsk_add_collect_grace_period rawCache 1 (some 5) (by decide) (by decide)

/-- C4: `invalidate(k)` returns true exactly when `k` is present; on a
present entry of non-negative age it decrements the age by 1, clamping
at 0 with one `g_critical` diagnostic exactly when the age was already
0, and never removes the entry; two consecutive invalidations after one
fresh `add` leave the entry present with age 0. -/
theorem gsk_invalidate_contract :
    (∀ (p : GskResourceCachePrivate) (k : Key),
        (gsk_resource_cache_invalidate_item p k).2 =
          gsk_resource_cache_has_item p k) ∧
    (∀ (p : GskResourceCachePrivate) (t : Table) (k : Key)
        (item : ResourceCacheItem),
        p.resources = some t → tableLookup t k = some item → 0 ≤ item.age →
        (gsk_resource_cache_invalidate_item p k).1.resources =
            some (tableUpdate t k
              { item with age := if item.age = 0 then 0 else item.age - 1 }) ∧
          (gsk_resource_cache_invalidate_item p k).1.criticals =
            p.criticals + (if item.age = 0 then 1 else 0) ∧
          gsk_resource_cache_has_item
            (gsk_resource_cache_invalidate_item p k).1 k = true) ∧
    (∀ (p : GskResourceCachePrivate) (k : Key) (v : Gpointer),
        supportedKind p.value_type →
        tableLookup (p.resources.getD []) k = none →
        ageOf (gsk_resource_cache_invalidate_item
            (gsk_resource_cache_invalidate_item
              (gsk_resource_cache_add_item p k v) k).1 k).1 k = some 0 ∧
          gsk_resource_cache_has_item
            (gsk_resource_cache_invalidate_item
              (gsk_resource_cache_invalidate_item
                (gsk_resource_cache_add_item p k v) k).1 k).1 k = true) := by
  refine ⟨?_, ?_, ?_⟩
  · intro p k
    cases hres : p.resources with
    | none =>
      simp [gsk_resource_cache_invalidate_item, gsk_resource_cache_has_item, hres]
    | some t =>
      cases hlk : tableLookup t k with
      | none =>
        simp [gsk_resource_cache_invalidate_item, gsk_resource_cache_has_item,
          hres, hlk]
      | some item =>
        rw [invalidate_present p t k item hres hlk]
        simp only [gsk_resource_cache_has_item, hres, hlk]
        split <;> rfl
  · intro p t k item hres hlk hage
    by_cases ha : item.age = 0
    · have hlt : item.age - 1 < 0 := by omega
      rw [invalidate_present p t k item hres hlk, if_pos hlt]
      refine ⟨by simp [ha], by simp [ha], ?_⟩
      show (tableLookup (tableUpdate t k { item with age := 0 }) k).isSome = true
      rw [tableLookup_update_self t k item _ hlk]
      rfl
    · have hlt : ¬ item.age - 1 < 0 := by omega
      rw [invalidate_present p t k item hres hlk, if_neg hlt]
      refine ⟨by simp [ha], by simp [ha], ?_⟩
      show (tableLookup (tableUpdate t k { item with age := item.age - 1 }) k).isSome =
        true
      rw [tableLookup_update_self t k item _ hlk]
      rfl
  · intro p k v hvt habs
    set it1 : ResourceCacheItem :=
      { value_type := p.value_type, value := v, last_access_time := 0, age := 1 }
      with hit1
    set t1 : Table := tableInsert (p.resources.getD []) k it1 with ht1
    have h1 : gsk_resource_cache_add_item p k v =
        { p with resources := some t1 } := add_absent p k v hvt habs
    have hres1 : (gsk_resource_cache_add_item p k v).resources = some t1 := by
      rw [h1]
    have hlk1 : tableLookup t1 k = some it1 :=
      tableLookup_insert_self _ k it1 habs
    have hinv1 := invalidate_present (gsk_resource_cache_add_item p k v) t1 k it1
      hres1 hlk1
    have hc1 : ¬ it1.age - 1 < 0 := by simp [hit1]
    rw [if_neg hc1] at hinv1
    have hres2 : (gsk_resource_cache_invalidate_item
        (gsk_resource_cache_add_item p k v) k).1.resources =
        some (tableUpdate t1 k { it1 with age := it1.age - 1 }) := by
      rw [hinv1]
    have hlk2 : tableLookup (tableUpdate t1 k { it1 with age := it1.age - 1 }) k =
        some { it1 with age := it1.age - 1 } :=
      tableLookup_update_self t1 k it1 _ hlk1
    have hinv2 := invalidate_present _ _ k _ hres2 hlk2
    have hc2 : ({ it1 with age := it1.age - 1 }).age - 1 < 0 := by simp [hit1]
    rw [if_pos hc2] at hinv2
    have hres3 : (gsk_resource_cache_invalidate_item
        (gsk_resource_cache_invalidate_item
          (gsk_resource_cache_add_item p k v) k).1 k).1.resources =
        some (tableUpdate (tableUpdate t1 k { it1 with age := it1.age - 1 }) k
          { { it1 with age := it1.age - 1 } with age := 0 }) := by
      rw [hinv2]
    have hlk3 := tableLookup_update_self
      (tableUpdate t1 k { it1 with age := it1.age - 1 }) k
      { it1 with age := it1.age - 1 }
      { { it1 with age := it1.age - 1 } with age := 0 } hlk2
    constructor
    · rw [ageOf_eq _ _ k _ hres3 hlk3]
    · simp only [gsk_resource_cache_has_item, hres3, hlk3]
      rfl

/-- C4 witness: add then two invalidations on a raw-pointer cache, key
still present with age 0. -/
theorem gsk_invalidate_contract_witness :
    ageOf (gsk_resource_cache_invalidate_item
        (gsk_resource_cache_invalidate_item
          (gsk_resource_cache_add_item rawCache 1 (some 5)) 1).1 1).1 1 = some 0 ∧
    gsk_resource_cache_has_item
      (gsk_resource_cache_invalidate_item
        (gsk_resource_cache_invalidate_item
          (gsk_resource_cache_add_item rawCache 1 (some 5)) 1).1 1).1 1 = true :=
  gsk_invalidate_contract.2.2 rawCache 1 (some 5) (by decide) (by decide)

/-- C6: `get` on a hit stamps `last_access_time` with the current
monotonic time and returns the stored value; on a miss (absent key or
never-allocated map) it returns the explicit `NULL` result leaving the
state alone; `get` never changes any entry's age, so the count returned
by `collect` and membership after `collect` are identical after any
finite sequence of `get(k)` calls to what they are after none. -/
theorem gsk_get_contract :
    (∀ (p : GskResourceCachePrivate) (t : Table) (k : Key)
        (item : ResourceCacheItem) (now : Int),
        p.resources = some t → tableLookup t k = some item →
        gsk_resource_cache_get_item p k now =
          ({ p with resources := some (tableUpdate t k
              { item with last_access_time := now }) }, item.value)) ∧
    (∀ (p : GskResourceCachePrivate) (k : Key) (now : Int),
        tableLookup (p.resources.getD []) k = none →
        gsk_resource_cache_get_item p k now = (p, none)) ∧
    (∀ (p : GskResourceCachePrivate) (k : Key) (now : Int) (k' : Key),
        ageOf (gsk_resource_cache_get_item p k now).1 k' = ageOf p k') ∧
    (∀ (p : GskResourceCachePrivate) (k : Key) (nows : List Int),
        (gsk_resource_cache_collect_items (applyGets p k nows)).2 =
          (gsk_resource_cache_collect_items p).2 ∧
        ∀ k', gsk_resource_cache_has_item
            (gsk_resource_cache_collect_items (applyGets p k nows)).1 k' =
          gsk_resource_cache_has_item
            (gsk_resource_cache_collect_items p).1 k') := by
  refine ⟨get_hit, get_miss, ageOf_get, ?_⟩
  intro p k nows
  have hs := shapeOf_applyGets p k nows
  constructor
  · rw [collect_count_shape, collect_count_shape, hs]
  · intro k'
    rw [has_shape, has_shape, shapeOf_collect, shapeOf_collect, hs]

/-- C6 witness: a miss on a fresh cache returns `NULL` with the state
unchanged, and after an add, two timestamped gets change neither the
entry's age nor the subsequent collection count or membership. -/
theorem gsk_get_contract_witness :
    gsk_resource_cache_get_item rawCache 1 3 = (rawCache, none) ∧
    ageOf (gsk_resource_cache_get_item
        (gsk_resource_cache_add_item rawCache 1 (some 5)) 1 3).1 1 =
      ageOf (gsk_resource_cache_add_item rawCache 1 (some 5)) 1 ∧
    (gsk_resource_cache_collect_items
        (applyGets (gsk_resource_cache_add_item rawCache 1 (some 5)) 1 [3, 7])).2 =
      (gsk_resource_cache_collect_items
        (gsk_resource_cache_add_item rawCache 1 (some 5))).2 ∧
    gsk_resource_cache_has_item
        (gsk_resource_cache_collect_items
          (applyGets (gsk_resource_cache_add_item rawCache 1 (some 5)) 1 [3, 7])).1 1 =
      gsk_resource_cache_has_item
        (gsk_resource_cache_collect_items
          (gsk_resource_cache_add_item rawCache 1 (some 5))).1 1 :=
  ⟨gsk_get_contract.2.1 rawCache 1 3 (by decide),
    gsk_get_contract.2.2.1 _ 1 3 1,
    (gsk_get_contract.2.2.2 _ 1 [3, 7]).1,
    (gsk_get_contract.2.2.2 _ 1 [3, 7]).2 1⟩

/-- C8 counterexample: on a fresh cache with no declared value kind the
first `add` — though rejected — allocates the backing map (a state
mutation), and that locks the configuration: `set_hash_func` afterwards
is a no-op, while on the untouched cache it would have recorded the
hash function. -/
theorem gsk_add_unconfigured_locks_config_cex :
    (gsk_resource_cache_add_item (gsk_resource_cache_new none) 1 (some 5)).resources ≠
      (gsk_resource_cache_new none).resources ∧
    (gsk_resource_cache_set_hash_func
        (gsk_resource_cache_add_item (gsk_resource_cache_new none) 1 (some 5))
        7).key_hash ≠ 7 ∧
    (gsk_resource_cache_set_hash_func (gsk_resource_cache_new none) 7).key_hash = 7 := by
  decide

/-- C8 (amended): `add` before any value kind is declared is rejected
with one `g_critical` diagnostic and creates no entry; however it does
allocate the backing map, after which the map-guarded configuration
setters (hash, equality, key-destroy, value type) are all no-ops, so
the configuration can no longer be completed; the cache itself keeps
its entries and stays usable. -/
theorem gsk_add_unconfigured_rejected (p : GskResourceCachePrivate) (k : Key)
    (v : Gpointer) (hvt : p.value_type = GType.invalid)
    (habs : tableLookup (p.resources.getD []) k = none) :
    gsk_resource_cache_add_item p k v =
      { p with resources := some (p.resources.getD []),
               criticals := p.criticals + 1 } ∧
    (∀ x, gsk_resource_cache_set_hash_func
        (gsk_resource_cache_add_item p k v) x = gsk_resource_cache_add_item p k v) ∧
    (∀ x, gsk_resource_cache_set_equal_func
        (gsk_resource_cache_add_item p k v) x = gsk_resource_cache_add_item p k v) ∧
    (∀ x, gsk_resource_cache_set_free_func
        (gsk_resource_cache_add_item p k v) x = gsk_resource_cache_add_item p k v) ∧
    (∀ x, gsk_resource_cache_set_value_type
        (gsk_resource_cache_add_item p k v) x = gsk_resource_cache_add_item p k v) := by
  have h := add_invalid_type p k v hvt habs
  have hsome : (gsk_resource_cache_add_item p k v).resources.isSome = true := by
    rw [h]
    rfl
  refine ⟨h, ?_, ?_, ?_, ?_⟩ <;> intro x
  · simp [gsk_resource_cache_set_hash_func, hsome]
  · simp [gsk_resource_cache_set_equal_func, hsome]
  · simp [gsk_resource_cache_set_free_func, hsome]
  · simp [gsk_resource_cache_set_value_type, hsome]

/-- C8 witness: the rejected first add and the subsequently locked hash
setter, on a concrete fresh cache. -/
theorem gsk_add_unconfigured_rejected_witness :
    gsk_resource_cache_add_item (gsk_resource_cache_new none) 1 (some 5) =
      { gsk_resource_cache_new none with
          resources := some ((gsk_resource_cache_new none).resources.getD []),
          criticals := (gsk_resource_cache_new none).criticals + 1 } ∧
    gsk_resource_cache_set_hash_func
        (gsk_resource_cache_add_item (gsk_resource_cache_new none) 1 (some 5)) 7 =
      gsk_resource_cache_add_item (gsk_resource_cache_new none) 1 (some 5) := by
  have h := gsk_add_unconfigured_rejected (gsk_resource_cache_new none) 1 (some 5)
    rfl (by decide)
  exact ⟨h.1, h.2.1 7⟩

/-- A cache whose backing map exists (allocated by a first, rejected
`add`) and whose construct-time name is "a". -/
def usedCache : GskResourceCachePrivate :=
  gsk_resource_cache_add_item (gsk_resource_cache_new (some "a")) 1 (some 5)

/-- C9 counterexample: once the backing map exists, `set_name` still
mutates the configuration: the diagnostic name changes from "a" to
"b", so not every configuration mutation is rejected. -/
theorem gsk_set_name_after_use_cex :
    usedCache.resources.isSome = true ∧
    usedCache.name = some "a" ∧
    (gsk_resource_cache_set_name usedCache (some "b")).name = some "b" ∧
    (gsk_resource_cache_set_name usedCache (some "b")).name ≠ usedCache.name := by
  refine ⟨rfl, rfl, rfl, ?_⟩
  intro h
  have h2 : "b" = "a" := Option.some.inj h
  exact absurd h2 (by decide)

/-- C9 (amended): once the backing map exists, mutating the key hash
function, key equality function, key-destroy function or declared value
kind is rejected and leaves the state unchanged; the diagnostic name is
the exception — `set_name` has no such guard and records the new name
at any time. -/
theorem gsk_config_frozen_except_name (p : GskResourceCachePrivate)
    (h : p.resources.isSome = true) :
    (∀ x, gsk_resource_cache_set_hash_func p x = p) ∧
    (∀ x, gsk_resource_cache_set_equal_func p x = p) ∧
    (∀ x, gsk_resource_cache_set_free_func p x = p) ∧
    (∀ x, gsk_resource_cache_set_value_type p x = p) ∧
    (∀ n, gsk_resource_cache_set_name p n = { p with name := n }) := by
  refine ⟨?_, ?_, ?_, ?_, ?_⟩ <;> intro x
  · simp [gsk_resource_cache_set_hash_func, h]
  · simp [gsk_resource_cache_set_equal_func, h]
  · simp [gsk_resource_cache_set_free_func, h]
  · simp [gsk_resource_cache_set_value_type, h]
  · rfl

/-- C9 witness: on a cache whose map exists, the guarded setters are
no-ops while `set_name` still changes the name. -/
theorem gsk_config_frozen_except_name_witness :
    gsk_resource_cache_set_hash_func usedCache 3 = usedCache ∧
    gsk_resource_cache_set_value_type usedCache GType.pointer = usedCache ∧
    gsk_resource_cache_set_name usedCache (some "b") =
      { usedCache with name := some "b" } := by
  have h := gsk_config_frozen_except_name usedCache rfl
  exact ⟨h.1 3, h.2.2.2.1 GType.pointer, h.2.2.2.2 (some "b")⟩

/-- C10: with a boxed or object value kind, `add(k, NULL)` on an absent
key inserts an entry that stores `NULL` (no copy or reference is taken),
so afterwards `has(k)` is true while `get(k)` returns `NULL` — the same
result `get` gives for the absent key — so a `NULL` from `get` does not
imply the key is missing. -/
theorem gsk_add_null_boxed_object (p : GskResourceCachePrivate) (k : Key)
    (now : Int)
    (hk : gTypeFundamental p.value_type = Fundamental.boxed ∨
          gTypeFundamental p.value_type = Fundamental.object)
    (habs : tableLookup (p.resources.getD []) k = none) :
    gsk_resource_cache_has_item (gsk_resource_cache_add_item p k none) k = true ∧
    (gsk_resource_cache_get_item (gsk_resource_cache_add_item p k none) k now).2 =
      none ∧
    (gsk_resource_cache_get_item p k now).2 = none := by
  have hvt : supportedKind p.value_type := by
    rcases hk with h | h
    · exact Or.inr (Or.inl h)
    · exact Or.inr (Or.inr h)
  have h1 := add_absent p k none hvt habs
  have hres1 : (gsk_resource_cache_add_item p k none).resources =
      some (tableInsert (p.resources.getD []) k
        { value_type := p.value_type, value := none,
          last_access_time := 0, age := 1 }) := by
    rw [h1]
  have hlk1 := tableLookup_insert_self (p.resources.getD []) k
    { value_type := p.value_type, value := none,
      last_access_time := 0, age := 1 } habs
  refine ⟨?_, ?_, ?_⟩
  · simp only [gsk_resource_cache_has_item, hres1, hlk1]
    rfl
  · rw [get_hit _ _ k _ now hres1 hlk1]
  · rw [get_miss p k now habs]

/-- C10 witness: on a boxed-type cache, adding key 1 with `NULL` leaves
the key present while `get` returns `NULL`, just as before the add. -/
theorem gsk_add_null_boxed_object_witness :
    gsk_resource_cache_has_item
        (gsk_resource_cache_add_item boxedCache 1 none) 1 = true ∧
    (gsk_resource_cache_get_item
        (gsk_resource_cache_add_item boxedCache 1 none) 1 0).2 = none ∧
    (gsk_resource_cache_get_item boxedCache 1 0).2 = none :=
  gsk_add_null_boxed_object boxedCache 1 0 (by decide) (by decide)

end GskCache
